import Mathlib

/-!
Shallow embedding of the cooperative coroutine scheduling core of the
`coro-first-io` benchmark (files `bench_co.hpp`, `bench_co_detail.hpp`)
and of the stoppable-awaitable protocol illustration, together with
theorems settling the specification claims about them.

Machine pointers are modelled as natural-number addresses; nullable
pointers as `Option` or the reserved address `0`; per-thread state is
passed explicitly; fallible operations return `Option`.
-/

set_option maxRecDepth 4000

namespace co
namespace detail

/-- A free-list node, mirroring `frame_pool::block`: the raw storage is
identified by its address `id`, and `size` is the size recorded in the
block header (`b->size`). -/
structure Block where
  id : Nat
  size : Nat
deriving DecidableEq, Repr

/-- `local_pool::pop(n)` and `global_pool::pop(n)`: walk the singly linked
list from the head and unlink the first block whose recorded size is at
least `n`; return `none` and the unchanged list when no block fits.
Mirrors the `while(*pp) { if((*pp)->size >= n) ... }` loop. -/
def poolPop (n : Nat) : List Block → Option Block × List Block
  | [] => (none, [])
  | b :: bs =>
    if n ≤ b.size then (some b, bs)
    else
      let r := poolPop n bs
      (r.1, b :: r.2)

/-- `local_pool::push(b)` / `global_pool::push(b)`: link the block in at
the head of the list (`b->next = head; head = b;`). -/
def poolPush (b : Block) (l : List Block) : List Block :=
  b :: l

/-- The mutable state of the frame-pool subsystem: one free list per
thread (the `static thread_local local_pool` of `get_local()`, keyed by
thread id), the mutex-protected global list (`global_pool::head`), the
number of calls made to the system allocator `::operator new`
(`sysAllocs`), and a source of fresh block addresses. -/
structure PoolState where
  locals : List (Nat × List Block)
  globalList : List Block
  sysAllocs : Nat
  nextAddr : Nat
deriving DecidableEq, Repr

def emptyPool : PoolState :=
  { locals := [], globalList := [], sysAllocs := 0, nextAddr := 0 }

/-- The free list of thread `tid` (empty when the thread has not touched
its `thread_local local_pool` yet). -/
def localsGet (tid : Nat) : List (Nat × List Block) → List Block
  | [] => []
  | (t, l) :: rest => if t = tid then l else localsGet tid rest

/-- Replace thread `tid`'s free list. -/
def localsSet (tid : Nat) (l : List Block) : List (Nat × List Block) → List (Nat × List Block)
  | [] => [(tid, l)]
  | (t, l0) :: rest =>
    if t = tid then (t, l) :: rest else (t, l0) :: localsSet tid l rest

/-- `frame_pool::allocate(n)`, executed by thread `tid`: first try the
thread-local list (`get_local().pop(n)`), then the global list
(`global_.pop(n)`), and finally fall back to the heap
(`::operator new(n)`, recorded by bumping `sysAllocs`), the fresh block
having its header size set to `n` (`b->size = n`). -/
def frame_pool.allocate (tid : Nat) (n : Nat) (st : PoolState) : Block × PoolState :=
  match poolPop n (localsGet tid st.locals) with
  | (some b, rest) => (b, { st with locals := localsSet tid rest st.locals })
  | (none, _) =>
    match poolPop n st.globalList with
    | (some b, rest) => (b, { st with globalList := rest })
    | (none, _) =>
      (⟨st.nextAddr, n⟩,
        { st with sysAllocs := st.sysAllocs + 1, nextAddr := st.nextAddr + 1 })

/-- `frame_pool::deallocate(p, n)`, executed by thread `tid`: restore the
size field of the block header (`b->size = n`) and push the block onto
the *deallocating* thread's local list (`get_local().push(b)`). The
global list is not touched. -/
def frame_pool.deallocate (tid : Nat) (p : Block) (n : Nat) (st : PoolState) : PoolState :=
  let b : Block := { p with size := n }
  { st with locals := localsSet tid (poolPush b (localsGet tid st.locals)) st.locals }

/-- Comparison definition taken from the spec's words, not from the
source: a "best-fit-or-larger" lookup returns the *smallest* block whose
recorded size is at least `n`. Used only to compare the source's search
strategy against the spec's description of it. -/
def bestFitPop (n : Nat) (l : List Block) : Option Block :=
  (l.filter (fun b => n ≤ b.size)).foldl
    (fun acc b =>
      match acc with
      | none => some b
      | some c => if b.size < c.size then some b else some c)
    none

end detail

/-- Coroutine handles are modelled as addresses. Address `0` models the
null handle (a default-constructed `std::coroutine_handle<>`);
`noop_coroutine` is the distinguished non-null handle returned by
`std::noop_coroutine()`. -/
abbrev Coro := Nat

def noop_coroutine : Coro := 1

/-- The static operations table `executor_ref::ops`, as instantiated
once per concrete executor type by `executor_ref::ops_for<Executor>`.
`dispatch_coro` and `equals` receive the type-erased instance
address(es); posting is observed through the events recorded by the
callers in this model, so the table carries the two operations the
proofs consult. -/
structure Ops where
  dispatch_coro : Nat → Coro → Coro
  equals : Nat → Nat → Bool

/-- `executor_ref` data members: `ops_` (pointer to the per-type static
table, `none` models `nullptr`) and `ex_` (address of the referenced
executor instance, `0` models `nullptr`). A table environment
`Γ : Nat → Ops` gives the table stored at each table address. -/
structure executor_ref where
  ops : Option Nat
  ex : Nat
deriving DecidableEq, Repr

/-- `executor_ref()` — the defaulted constructor leaves
`ops_ = nullptr` and `ex_ = nullptr`. -/
def executor_ref.mkDefault : executor_ref :=
  ⟨none, 0⟩

/-- `executor_ref(Executor const& ex)`: stores `&ops_for<Executor>` and
`&ex`. `τ` is the address of the concrete type's static `ops_for`
table; `ops_for<E1>` and `ops_for<E2>` are distinct static objects for
distinct types, so distinct concrete types supply distinct `τ`. -/
def executor_ref.fromExecutor (τ : Nat) (exAddr : Nat) : executor_ref :=
  ⟨some τ, exAddr⟩

/-- `executor_ref::dispatch(h) { return ops_->dispatch_coro(ex_, h); }`.
`none` models the undefined call through a null `ops_`. -/
def executor_ref.dispatch (Γ : Nat → Ops) (r : executor_ref) (h : Coro) : Option Coro :=
  r.ops.map fun t => (Γ t).dispatch_coro r.ex h

/-- `executor_ref::operator==`:
`return ops_ == other.ops_ && ops_->equals(ex_, other.ex_);`
The table pointers are compared first; only when they are identical is
`equals` invoked through `ops_`. Invoking it through a null `ops_`
(both sides default-constructed) is undefined behaviour, modelled as
`none`. -/
def executor_ref.eq (Γ : Nat → Ops) (a b : executor_ref) : Option Bool :=
  if a.ops = b.ops then
    match a.ops with
    | none => none
    | some t => some ((Γ t).equals a.ex b.ex)
  else some false

/-- The data members of `task::promise_type` relevant to scheduling: the
executor the task runs on (`ex_`), the caller's executor captured at
await time (`caller_ex_`), and the continuation handle
(`continuation_`, address `0` when null). -/
structure promise_type where
  ex : executor_ref
  caller_ex : executor_ref
  continuation : Coro
deriving DecidableEq, Repr

/-- A work item whose posting is observable in this model: the `starter`
allocated and posted by `task::await_suspend` when the task has its own
executor, holding the task's handle `h_` and remembering the executor
reference it was posted to. -/
inductive posted_item where
  | starter (target : executor_ref) (h : Coro)
deriving DecidableEq, Repr

/-- `task::await_suspend(continuation, caller_ex)` — the affine
overload. Arguments: the promise state `p` of the awaited task, its
`has_own_ex_` flag, its own handle `h` (`h_`), the caller's
`continuation` handle and the caller's executor reference. Returns the
updated promise, the list of work items posted, the handle returned for
symmetric transfer, and the number of system allocations performed
(`new starter{h_}` performs one).

Mirrors bench_co.hpp: both branches first store
`caller_ex_ = executor_ref(caller_ex)` and
`continuation_ = continuation`; when `has_own_ex_` is set the task
posts `new starter{h_}` to its own `ex_` and returns
`std::noop_coroutine()`; otherwise it inherits the caller's executor
(`ex_ = executor_ref(caller_ex)`) and returns `h_`. -/
def task.await_suspend (p : promise_type) (hasOwnEx : Bool) (h : Coro)
    (continuation : Coro) (callerEx : executor_ref) :
    promise_type × List posted_item × Coro × Nat :=
  let p1 := { p with caller_ex := callerEx, continuation := continuation }
  if hasOwnEx then
    (p1, [posted_item.starter p1.ex h], noop_coroutine, 1)
  else
    ({ p1 with ex := callerEx }, [], h, 0)

/-- `task::set_executor(ex)`:
`h_.promise().ex_ = executor_ref(ex); has_own_ex_ = true;` — returns
the updated promise together with the new `has_own_ex_` flag. -/
def task.set_executor (p : promise_type) (newEx : executor_ref) : promise_type × Bool :=
  ({ p with ex := newEx }, true)

/-- The awaiter returned by `task::promise_type::final_suspend`, member
`await_suspend(h)`:
`next = std::noop_coroutine(); if(p_->continuation_) next =
p_->caller_ex_.dispatch(p_->continuation_); h.destroy(); return next;`
Result: the handle returned for symmetric transfer (`none` when the
dispatch would go through an uninitialised `caller_ex_`) and whether
the task's own frame was destroyed. -/
def final_awaiter_await_suspend (Γ : Nat → Ops) (p : promise_type) :
    Option Coro × Bool :=
  if p.continuation ≠ 0 then
    (executor_ref.dispatch Γ p.caller_ex p.continuation, true)
  else
    (some noop_coroutine, true)

/-- Outcome of driving a task body. `terminated` carries no payload:
`std::terminate()` ends the process, so nothing is stored for later
retrieval — the type has no fault-carrying constructor, exactly as
`task::promise_type` has no member in which an exception could be
stored. -/
inductive task_outcome where
  | completed
  | terminated
deriving DecidableEq, Repr

/-- `task::promise_type::unhandled_exception() { std::terminate(); }` -/
def promise_unhandled_exception : task_outcome :=
  task_outcome.terminated

/-- `detail::root_task::promise_type::unhandled_exception()
{ std::terminate(); }` -/
def root_promise_unhandled_exception : task_outcome :=
  task_outcome.terminated

/-- Running a `task` body that either returns (`Except.ok`) or lets an
exception escape uncaught (`Except.error e`): an escaping exception
reaches the promise's `unhandled_exception`. -/
def run_task_body {ε : Type} (body : Except ε Unit) : task_outcome :=
  match body with
  | Except.ok _ => task_outcome.completed
  | Except.error _ => promise_unhandled_exception

/-- Same for the `detail::root_task` wrapper coroutine. -/
def run_root_body {ε : Type} (body : Except ε Unit) : task_outcome :=
  match body with
  | Except.ok _ => task_outcome.completed
  | Except.error _ => root_promise_unhandled_exception

namespace detail

/-- Observable lifecycle state of the `detail::root_task` wrapper built
by `async_run`. -/
structure root_state where
  frameAlive : Bool
  released : Bool
  starterPosted : Bool
  descendantStarted : Bool
deriving DecidableEq, Repr

/-- `root_task::~root_task() { if(h_) h_.destroy(); }`: destroys the
wrapper frame unless ownership was released (`h_ == nullptr`). -/
def root_task_dtor (s : root_state) : root_state :=
  if s.released then s else { s with frameAlive := false }

/-- `root_task::release() { h_ = nullptr; }` -/
def root_task_release (s : root_state) : root_state :=
  { s with released := true }

/-- The awaiter of `root_task::promise_type::final_suspend`:
`h.destroy(); return std::noop_coroutine();` — the wrapper self-destructs
at its terminal suspension and hands a no-op back. -/
def root_final_await_suspend (s : root_state) : Coro × root_state :=
  (noop_coroutine, { s with frameAlive := false })

end detail

/-- `async_run(ex, t)`:
`auto root = detail::wrapper<Executor>(std::move(t));` creates the
wrapper coroutine suspended at `initial_suspend` (frame allocated);
then `root.h_.promise().ex_ = std::move(ex);`,
`root.h_.promise().starter_.h_ = root.h_;`,
`root.h_.promise().ex_.post(&root.h_.promise().starter_);`,
`root.release();`.

`postThrows` selects whether `post` on the supplied executor throws.
Result: `some ()` when an exception propagates synchronously out of
`async_run` (stack unwinding destroys the local `root`, running
`~root_task`), paired with the wrapper state after `async_run` returns
or throws. The wrapped task is resumed only when the posted starter
later runs, so `descendantStarted` is still false either way. -/
def async_run (postThrows : Bool) : Option Unit × detail.root_state :=
  let s : detail.root_state :=
    { frameAlive := true, released := false
      starterPosted := false, descendantStarted := false }
  if postThrows then
    (some (), detail.root_task_dtor s)
  else
    (none, detail.root_task_release { s with starterPosted := true })

namespace stoppable

/-- One awaited operation of a chain: `participates` tells whether the
awaitable implements the stoppable-protocol overload
`await_suspend(h, st)` (part_004 §4.2). -/
structure chain_op where
  participates : Bool
deriving DecidableEq, Repr

/-- Observable events while a chain runs: every `stop_requested()` query
together with the value it observed, and every completed unit of work,
tagged with the index of the operation that performed it. -/
inductive ev where
  | check (observed : Bool)
  | workUnit (opIdx : Nat)
deriving DecidableEq, Repr

/-- Run the remaining operations of a chain whose promise stores a stop
token, every `co_await` being wrapped in a `stoppable_awaiter` by
`await_transform` (part_004 §6.1/§6.2). `stopAt t` is the token's
`stop_requested()` value at time `t`; the clock advances by one at
every query and at every unit of work; `i` is the index of the next
operation.

Per operation, mirroring `stoppable_awaiter`:
- `await_ready` queries the token; on `true` it short-circuits without
  consulting the inner awaitable.
- When short-circuited, `await_resume` queries the token again and
  throws `operation_canceled` when it is set, aborting the chain;
  otherwise the inner awaitable's resume runs (no work was performed).
- When not short-circuited the inner awaitable suspends
  (`await_ready` of a pending I/O operation is false): a participating
  operation first checks the token passed to its
  `await_suspend(h, st)` and, when it is set, cancels immediately and
  resumes the caller promptly without performing work; otherwise — and
  always, for a non-participating operation — the operation performs
  its unit of work and completes. The wrapper's `await_resume` then
  queries the token and throws when it is set. -/
def runChain (stopAt : Nat → Bool) : List chain_op → Nat → Nat → List ev
  | [], _, _ => []
  | op :: rest, i, t =>
    if stopAt t then
      if stopAt (t+1) then
        [ev.check (stopAt t), ev.check (stopAt (t+1))]
      else
        ev.check (stopAt t) :: ev.check (stopAt (t+1)) :: runChain stopAt rest (i+1) (t+2)
    else
      if op.participates then
        if stopAt (t+1) then
          if stopAt (t+2) then
            [ev.check (stopAt t), ev.check (stopAt (t+1)), ev.check (stopAt (t+2))]
          else
            ev.check (stopAt t) :: ev.check (stopAt (t+1)) :: ev.check (stopAt (t+2))
              :: runChain stopAt rest (i+1) (t+3)
        else
          ev.check (stopAt t) :: ev.check (stopAt (t+1)) :: ev.workUnit i ::
            (if stopAt (t+3) then [ev.check (stopAt (t+3))]
             else ev.check (stopAt (t+3)) :: runChain stopAt rest (i+1) (t+4))
      else
        ev.check (stopAt t) :: ev.workUnit i ::
          (if stopAt (t+2) then [ev.check (stopAt (t+2))]
           else ev.check (stopAt (t+2)) :: runChain stopAt rest (i+1) (t+3))

end stoppable

/-- The two `io_context` executors of the two-context scenario: both
are the same concrete executor type (one shared static `ops_for` table,
at address `0`); the instances live at addresses `10` (context A) and
`11` (context B). -/
def ctxA : executor_ref :=
  executor_ref.fromExecutor 0 10

def ctxB : executor_ref :=
  executor_ref.fromExecutor 0 11

/-- `socket::do_read_some(h, ex)`: stores the handle and executor
reference into the preallocated `read_op_` slot and posts that slot to
`ex` (`ex.post(read_op_.get())`, simulating the OS call). No allocation
happens; the observable effect is the executor instance the read was
posted to. -/
def do_read_some (ex : executor_ref) : Nat :=
  ex.ex

/-- One repetition of the concrete two-context scenario: a chain of 100
sequential reads on context A, then one read inside a subtask bound to
context B with `run_on`, then one more read back on A, the whole chain
driven through `async_run` and serviced on a single thread (`tid = 0`).
The coroutine-frame request sizes (frame plus `alloc_header`) are the
parameters `rootSize` (the `root_task` wrapper frame), `parentSize`
(the parent task frame) and `childSize` (the `run_on`-bound child task
frame).

Returns the pool state after the iteration, the number of calls into
the system allocator during the iteration, and the sequence of executor
instances the reads were posted to. -/
def runIteration (rootSize parentSize childSize : Nat) (st0 : detail.PoolState) :
    detail.PoolState × Nat × List Nat :=
  -- the parent task coroutine is created suspended;
  -- task::promise_type::operator new allocates its frame from the pool
  let a1 := detail.frame_pool.allocate 0 parentSize st0
  -- async_run: detail::wrapper<Executor> allocates the root_task frame
  -- from the pool, then posts the embedded starter_
  let a2 := detail.frame_pool.allocate 0 rootSize a1.2
  -- the starter resumes the wrapper; `co_await t` reaches
  -- task::await_suspend with the wrapper's executor (context A); the
  -- parent task has no executor of its own, so it inherits A and is
  -- resumed by symmetric transfer
  let pw := task.await_suspend ⟨executor_ref.mkDefault, executor_ref.mkDefault, 0⟩
              false 2 3 ctxA
  let parentP := pw.1
  -- 100 sequential reads, each posted to the parent's executor
  let reads1 := List.replicate 100 (do_read_some parentP.ex)
  -- run_on(ctxB, child()): the child task coroutine is created (frame
  -- from the pool) and set_executor(ctxB) binds it to B
  let a3 := detail.frame_pool.allocate 0 childSize a2.2
  let sx := task.set_executor ⟨executor_ref.mkDefault, executor_ref.mkDefault, 0⟩ ctxB
  -- awaiting the bound child: task::await_suspend posts `new starter{h_}`
  -- — one system allocation — to B and returns noop to the parent
  let cw := task.await_suspend sx.1 sx.2 4 2 parentP.ex
  let starterAllocs := cw.2.2.2
  -- the starter runs on B and resumes the child, which performs its one
  -- read there; the starter then deletes itself
  let readB := do_read_some cw.1.ex
  -- the child reaches final_suspend: its continuation is dispatched
  -- through caller_ex_ (context A) and operator delete returns the
  -- child frame to the pool
  let st4 := detail.frame_pool.deallocate 0 a3.1 childSize a3.2
  -- back on A: the final read, then the parent completes and its frame
  -- returns to the pool, then the wrapper self-destructs likewise
  let readA := do_read_some parentP.ex
  let st5 := detail.frame_pool.deallocate 0 a1.1 parentSize st4
  let st6 := detail.frame_pool.deallocate 0 a2.1 rootSize st5
  (st6, st6.sysAllocs - st0.sysAllocs + starterAllocs, reads1 ++ [readB, readA])

/-- Iterating the scenario from a cold pool: `iterPool r p c n` is the
pool state after `n` repetitions. -/
def iterPool (rootSize parentSize childSize : Nat) : Nat → detail.PoolState
  | 0 => detail.emptyPool
  | n+1 => (runIteration rootSize parentSize childSize
              (iterPool rootSize parentSize childSize n)).1

/-- A sample concrete executor type used to instantiate witnesses: its
dispatch returns the handle offset by the instance address, and its
equality compares instance addresses. -/
def sampleOps : Ops :=
  { dispatch_coro := fun inst h => h + inst
    equals := fun a b => a == b }

/-- A table environment whose every table address holds `sampleOps`. -/
def sampleEnv : Nat → Ops :=
  fun _ => sampleOps

end co

namespace co
namespace detail

theorem poolPop_fst_eq_find (n : Nat) : ∀ l : List Block,
    (poolPop n l).1 = l.find? fun b => decide (n ≤ b.size)
  | [] => rfl
  | b :: bs => by
    by_cases h : n ≤ b.size
    · rw [List.find?_cons_of_pos _ (by simpa using h)]
      simp [poolPop, h]
    · rw [List.find?_cons_of_neg _ (by simpa using h)]
      simp [poolPop, h, poolPop_fst_eq_find n bs]

theorem poolPop_size_le {n : Nat} {l : List Block} {b : Block}
    (h : (poolPop n l).1 = some b) : n ≤ b.size := by
  rw [poolPop_fst_eq_find] at h
  simpa using List.find?_some h

theorem poolPop_mem {n : Nat} {l : List Block} {b : Block}
    (h : (poolPop n l).1 = some b) : b ∈ l := by
  rw [poolPop_fst_eq_find] at h
  exact List.mem_of_find?_eq_some h

theorem poolPop_fst_none_iff {n : Nat} {l : List Block} :
    (poolPop n l).1 = none ↔ ∀ b ∈ l, b.size < n := by
  rw [poolPop_fst_eq_find, List.find?_eq_none]
  constructor
  · intro h b hb
    have := h b hb
    simpa [Nat.lt_iff_add_one_le, Nat.not_le] using this
  · intro h b hb
    simpa [Nat.not_le] using h b hb

/-- C4 (amended): `frame_pool::allocate(n)` tries sources in this exact
order: (1) the thread-local free list, searched first-fit for the first
block of recorded size ≥ n, (2) the mutex-protected global free list,
(3) the system allocator as fallback — and a block taken from either
free list always has recorded size ≥ n. -/
theorem spec_c4_order_and_size (tid n : Nat) (st : PoolState) :
    n ≤ (frame_pool.allocate tid n st).1.size
  ∧ ((∃ b ∈ localsGet tid st.locals, n ≤ b.size) →
       (localsGet tid st.locals).find? (fun b => decide (n ≤ b.size))
           = some (frame_pool.allocate tid n st).1
       ∧ (frame_pool.allocate tid n st).2.globalList = st.globalList
       ∧ (frame_pool.allocate tid n st).2.sysAllocs = st.sysAllocs)
  ∧ ((∀ b ∈ localsGet tid st.locals, b.size < n) →
       (∃ b ∈ st.globalList, n ≤ b.size) →
       (frame_pool.allocate tid n st).1 ∈ st.globalList
       ∧ (frame_pool.allocate tid n st).2.locals = st.locals
       ∧ (frame_pool.allocate tid n st).2.sysAllocs = st.sysAllocs)
  ∧ ((∀ b ∈ localsGet tid st.locals, b.size < n) →
       (∀ b ∈ st.globalList, b.size < n) →
       (frame_pool.allocate tid n st).1 = ⟨st.nextAddr, n⟩
       ∧ (frame_pool.allocate tid n st).2.sysAllocs = st.sysAllocs + 1) := by
  rcases hl : poolPop n (localsGet tid st.locals) with ⟨lo, lrest⟩
  have hl1 : (poolPop n (localsGet tid st.locals)).1 = lo := by rw [hl]
  cases lo with
  | some b =>
    have halloc : frame_pool.allocate tid n st
        = (b, { st with locals := localsSet tid lrest st.locals }) := by
      unfold frame_pool.allocate
      rw [hl]
    have hfind : (localsGet tid st.locals).find? (fun b => decide (n ≤ b.size)) = some b := by
      rw [← poolPop_fst_eq_find]
      exact hl1
    refine ⟨?_, ?_, ?_, ?_⟩
    · rw [halloc]
      exact poolPop_size_le hl1
    · intro _
      rw [halloc]
      exact ⟨hfind, rfl, rfl⟩
    · intro hsmall _
      have : (poolPop n (localsGet tid st.locals)).1 = none := poolPop_fst_none_iff.mpr hsmall
      rw [hl1] at this
      exact absurd this (by simp)
    · intro hsmall _
      have : (poolPop n (localsGet tid st.locals)).1 = none := poolPop_fst_none_iff.mpr hsmall
      rw [hl1] at this
      exact absurd this (by simp)
  | none =>
    rcases hg : poolPop n st.globalList with ⟨go, grest⟩
    have hg1 : (poolPop n st.globalList).1 = go := by rw [hg]
    cases go with
    | some b =>
      have halloc : frame_pool.allocate tid n st = (b, { st with globalList := grest }) := by
        unfold frame_pool.allocate
        rw [hl, hg]
      refine ⟨?_, ?_, ?_, ?_⟩
      · rw [halloc]
        exact poolPop_size_le hg1
      · rintro ⟨b0, hb0, hb0s⟩
        have := poolPop_fst_none_iff.mp hl1 b0 hb0
        omega
      · intro _ _
        rw [halloc]
        exact ⟨poolPop_mem hg1, rfl, rfl⟩
      · intro _ hgsmall
        have : (poolPop n st.globalList).1 = none := poolPop_fst_none_iff.mpr hgsmall
        rw [hg1] at this
        exact absurd this (by simp)
    | none =>
      have halloc : frame_pool.allocate tid n st
          = (⟨st.nextAddr, n⟩,
             { st with sysAllocs := st.sysAllocs + 1, nextAddr := st.nextAddr + 1 }) := by
        unfold frame_pool.allocate
        rw [hl, hg]
      refine ⟨?_, ?_, ?_, ?_⟩
      · rw [halloc]
      · rintro ⟨b0, hb0, hb0s⟩
        have := poolPop_fst_none_iff.mp hl1 b0 hb0
        omega
      · rintro _ ⟨b0, hb0, hb0s⟩
        have := poolPop_fst_none_iff.mp hg1 b0 hb0
        omega
      · intro _ _
        rw [halloc]
        exact ⟨rfl, rfl⟩

/-- Witness for C4's theorem: with a cold pool a 7-byte request falls
through to the system allocator; with a thread-local list holding an
8-byte block the same request is served from the local list without
touching the allocation counter. -/
theorem spec_c4_order_and_size_witness :
    (frame_pool.allocate 0 7 emptyPool).2.sysAllocs = emptyPool.sysAllocs + 1
  ∧ (frame_pool.allocate 0 7
       { locals := [(0, [⟨21, 8⟩])], globalList := [], sysAllocs := 0, nextAddr := 9 }).2.sysAllocs
     = ({ locals := [(0, [⟨21, 8⟩])], globalList := [], sysAllocs := 0, nextAddr := 9 }
         : PoolState).sysAllocs :=
  ⟨((spec_c4_order_and_size 0 7 emptyPool).2.2.2
      (fun b hb => absurd hb (List.not_mem_nil b))
      (fun b hb => absurd hb (List.not_mem_nil b))).2,
   ((spec_c4_order_and_size 0 7
       { locals := [(0, [⟨21, 8⟩])], globalList := [], sysAllocs := 0, nextAddr := 9 }).2.1
      ⟨⟨21, 8⟩, by decide, by decide⟩).2.2⟩

/-- C4 counterexample to "searched by best-fit-or-larger size": with the
thread-local free list holding a 12-byte block in front of a 5-byte
block, a 5-byte request takes the first fitting block (the 12-byte one);
a best-fit-or-larger search would return the exact 5-byte block. -/
theorem spec_c4_counterexample :
    (frame_pool.allocate 0 5
       { locals := [(0, [⟨100, 12⟩, ⟨200, 5⟩])], globalList := []
         sysAllocs := 0, nextAddr := 0 }).1 = ⟨100, 12⟩
  ∧ bestFitPop 5 [⟨100, 12⟩, ⟨200, 5⟩] = some ⟨200, 5⟩
  ∧ (⟨100, 12⟩ : Block) ≠ ⟨200, 5⟩ := by
  refine ⟨by decide, by decide, by decide⟩

/-- C3: the code contradicts the claimed cross-thread return path. One
64-byte frame is allocated on thread A (= 0), deallocated on thread
B (= 1), and requested again on thread A: the freed block is stranded on
B's thread-local list, the global list stays empty (nothing in the code
ever pushes to it), and A's second request calls the system allocator
again instead of reusing the freed memory. -/
theorem spec_c3_cross_thread_return_bug :
    (frame_pool.allocate 0 64 emptyPool).2.sysAllocs = 1
  ∧ (let st1 := (frame_pool.allocate 0 64 emptyPool).2
     let b := (frame_pool.allocate 0 64 emptyPool).1
     let st2 := frame_pool.deallocate 1 b 64 st1
     localsGet 1 st2.locals = [⟨0, 64⟩]
     ∧ st2.globalList = []
     ∧ (frame_pool.allocate 0 64 st2).2.sysAllocs = 2
     ∧ (frame_pool.allocate 0 64 st2).1 ≠ b)
  ∧ (∀ (tid : Nat) (p : Block) (n : Nat) (st : PoolState),
       (frame_pool.deallocate tid p n st).globalList = st.globalList) :=
  ⟨by decide, by decide, fun _ _ _ _ => rfl⟩

end detail
end co

namespace co

/-- C1: awaiting a task: both branches of `task::await_suspend` store the
caller's executor into `caller_ex_` and the continuation; when
`has_own_ex_` is set (by `task::set_executor`) the task posts a starter
holding `h_` to its own bound executor `ex_` (left unchanged) and
returns the no-op coroutine; otherwise it inherits the caller's
executor into `ex_` and returns its own handle for symmetric transfer.
`task::set_executor` is what sets the flag and the bound executor. -/
theorem spec_c1_await_suspend (p : promise_type) (hasOwnEx : Bool) (h cont : Coro)
    (callerEx : executor_ref) :
    (task.await_suspend p hasOwnEx h cont callerEx).1.caller_ex = callerEx
  ∧ (task.await_suspend p hasOwnEx h cont callerEx).1.continuation = cont
  ∧ (hasOwnEx = true →
       (task.await_suspend p hasOwnEx h cont callerEx).2.1
           = [posted_item.starter p.ex h]
       ∧ (task.await_suspend p hasOwnEx h cont callerEx).2.2.1 = noop_coroutine
       ∧ (task.await_suspend p hasOwnEx h cont callerEx).1.ex = p.ex)
  ∧ (hasOwnEx = false →
       (task.await_suspend p hasOwnEx h cont callerEx).1.ex = callerEx
       ∧ (task.await_suspend p hasOwnEx h cont callerEx).2.1 = []
       ∧ (task.await_suspend p hasOwnEx h cont callerEx).2.2.1 = h)
  ∧ (∀ newEx : executor_ref,
       (task.set_executor p newEx).2 = true ∧ (task.set_executor p newEx).1.ex = newEx) := by
  cases hasOwnEx <;> simp [task.await_suspend, task.set_executor]

/-- Witness for C1: a task bound to context B posts its starter to B and
a task without its own executor returns its own handle after storing the
caller's context. -/
theorem spec_c1_await_suspend_witness :
    (task.await_suspend ⟨ctxB, executor_ref.mkDefault, 0⟩ true 2 3 ctxA).2.1
        = [posted_item.starter ctxB 2]
  ∧ (task.await_suspend ⟨ctxB, executor_ref.mkDefault, 0⟩ false 2 3 ctxA).1.ex = ctxA :=
  ⟨((spec_c1_await_suspend ⟨ctxB, executor_ref.mkDefault, 0⟩ true 2 3 ctxA).2.2.1 rfl).1,
   ((spec_c1_await_suspend ⟨ctxB, executor_ref.mkDefault, 0⟩ false 2 3 ctxA).2.2.2.1 rfl).1⟩

/-- C2: the final-suspend awaiter: with a stored continuation the next
unit is the stored continuation dispatched through the stored
caller-context reference `caller_ex_`, and the result does not depend on
the task's own running executor `ex_`; without a continuation the no-op
coroutine is returned; the task's own frame is destroyed in both
cases. -/
theorem spec_c2_final_suspend (Γ : Nat → Ops) (p : promise_type) :
    (p.continuation ≠ 0 →
       final_awaiter_await_suspend Γ p
           = (executor_ref.dispatch Γ p.caller_ex p.continuation, true)
       ∧ ∀ t : Nat, p.caller_ex.ops = some t →
           final_awaiter_await_suspend Γ p
             = (some ((Γ t).dispatch_coro p.caller_ex.ex p.continuation), true))
  ∧ (p.continuation = 0 →
       final_awaiter_await_suspend Γ p = (some noop_coroutine, true))
  ∧ (∀ e : executor_ref,
       final_awaiter_await_suspend Γ { p with ex := e }
         = final_awaiter_await_suspend Γ p)
  ∧ (final_awaiter_await_suspend Γ p).2 = true := by
  by_cases hc : p.continuation = 0 <;>
    simp [final_awaiter_await_suspend, executor_ref.dispatch, hc]
  intro t ht
  simp [ht]

/-- Witness for C2: a promise whose caller context is A (instance 10)
and whose continuation is handle 5 dispatches 5 through A's table,
giving 15 under `sampleOps`, and destroys its frame. -/
theorem spec_c2_final_suspend_witness :
    final_awaiter_await_suspend sampleEnv ⟨ctxB, ctxA, 5⟩ = (some 15, true) :=
  ((spec_c2_final_suspend sampleEnv ⟨ctxB, ctxA, 5⟩).1 (by decide)).2 0 rfl

/-- C5: `executor_ref::operator==` on properly constructed references:
equality holds iff the operation-table pointers are identical and the
underlying instances compare equal through that table's `equals`; when
the tables differ the result is `false` for every table environment —
the underlying instances are never consulted. -/
theorem spec_c5_executor_eq (Γ : Nat → Ops) (τ₁ τ₂ e₁ e₂ : Nat) :
    (executor_ref.eq Γ (executor_ref.fromExecutor τ₁ e₁) (executor_ref.fromExecutor τ₂ e₂)
        = some true
      ↔ τ₁ = τ₂ ∧ (Γ τ₁).equals e₁ e₂ = true)
  ∧ (τ₁ ≠ τ₂ → ∀ Γ2 : Nat → Ops,
       executor_ref.eq Γ2 (executor_ref.fromExecutor τ₁ e₁) (executor_ref.fromExecutor τ₂ e₂)
         = some false) := by
  by_cases hτ : τ₁ = τ₂
  · subst hτ
    simp [executor_ref.eq, executor_ref.fromExecutor]
  · simp [executor_ref.eq, executor_ref.fromExecutor, hτ]

/-- Witness for C5: two references to the same instance address but
erased from distinct concrete executor types are unequal. -/
theorem spec_c5_executor_eq_witness :
    executor_ref.eq sampleEnv (executor_ref.fromExecutor 0 10)
        (executor_ref.fromExecutor 1 10) = some false :=
  (spec_c5_executor_eq sampleEnv 0 1 10 10).2 (by decide) sampleEnv

/-- C10: comparing two default-constructed `executor_ref`s reaches the
call through the null `ops_` pointer — undefined behaviour, modelled as
`none` — while references constructed from concrete executors always
produce a defined result. -/
theorem spec_c10_default_eq_undefined (Γ : Nat → Ops) :
    executor_ref.eq Γ executor_ref.mkDefault executor_ref.mkDefault = none
  ∧ executor_ref.mkDefault.ops = none
  ∧ (∀ τ₁ e₁ τ₂ e₂ : Nat,
       (executor_ref.eq Γ (executor_ref.fromExecutor τ₁ e₁)
          (executor_ref.fromExecutor τ₂ e₂)).isSome = true) := by
  refine ⟨rfl, rfl, ?_⟩
  intro τ₁ e₁ τ₂ e₂
  by_cases h : τ₁ = τ₂ <;> simp [executor_ref.eq, executor_ref.fromExecutor, h]

/-- C8: a task body that lets an exception escape reaches the promise's
`unhandled_exception`, which terminates the process, for both the task
promise and the root wrapper promise; every outcome is either normal
completion or termination — `task_outcome` has no fault-storing
alternative, as the promises store no exception. -/
theorem spec_c8_uncaught_fault_terminates {ε : Type} (e : ε) :
    run_task_body (Except.error e) = task_outcome.terminated
  ∧ run_root_body (Except.error e) = task_outcome.terminated
  ∧ (∀ b : Except ε Unit,
       run_task_body b = task_outcome.completed
       ∨ run_task_body b = task_outcome.terminated) := by
  refine ⟨rfl, rfl, ?_⟩
  intro b
  cases b
  · exact Or.inr rfl
  · exact Or.inl rfl

/-- Witness for C8 at a concrete escaping exception. -/
theorem spec_c8_uncaught_fault_terminates_witness :
    run_task_body (Except.error (0 : Nat)) = task_outcome.terminated :=
  (spec_c8_uncaught_fault_terminates (0 : Nat)).1

/-- C9: if `post` throws inside `async_run`, the failure propagates
synchronously, unwinding runs `~root_task` and destroys the wrapper
frame, nothing is posted and no descendant task has started; if `post`
succeeds, ownership is released and the frame stays alive, to be
destroyed only by the terminal-suspension awaiter, which returns the
no-op coroutine. -/
theorem spec_c9_async_run :
    async_run true
      = (some (), { frameAlive := false, released := false
                    starterPosted := false, descendantStarted := false })
  ∧ async_run false
      = (none, { frameAlive := true, released := true
                 starterPosted := true, descendantStarted := false })
  ∧ (∀ s : detail.root_state,
       (detail.root_final_await_suspend s).2.frameAlive = false
       ∧ (detail.root_final_await_suspend s).1 = noop_coroutine) :=
  ⟨rfl, rfl, fun _ => ⟨rfl, rfl⟩⟩

theorem iterPool_fixpoint :
    (runIteration 64 160 96 (iterPool 64 160 96 1)).1 = iterPool 64 160 96 1 := by
  decide

theorem iterPool_stable : ∀ n : Nat, iterPool 64 160 96 (n + 1) = iterPool 64 160 96 1 := by
  intro n
  induction n with
  | zero => rfl
  | succ k ih =>
    show (runIteration 64 160 96 (iterPool 64 160 96 (k + 1))).1 = _
    rw [ih]
    exact iterPool_fixpoint

/-- C6 counterexample: after one warm-up iteration of the
100-reads-on-A, one-read-on-B, one-read-on-A chain, the next repetition
performs exactly ONE system allocation — the `new starter{h_}` posted by
`task::await_suspend` for the `run_on`-bound subtask — not zero; the
observed context sequence is `[A×100, B×1, A×1]` as claimed. -/
theorem spec_c6_counterexample :
    (runIteration 64 160 96 (iterPool 64 160 96 1)).2.1 = 1
  ∧ (1 : Nat) ≠ 0
  ∧ (runIteration 64 160 96 (iterPool 64 160 96 1)).2.2
      = List.replicate 100 10 ++ [11, 10] :=
  ⟨by decide, by decide, by decide⟩

/-- C6 (amended): after one warm-up iteration every further repetition
of the identical chain performs exactly one system allocation — the
transient starter work item allocated by `task::await_suspend` when the
executor-bound subtask is awaited — with all coroutine frames reused
from the pool, and the context sequence observed is `[A×100, B×1,
A×1]`. -/
theorem spec_c6_steady_state (n : Nat) (hn : 1 ≤ n) :
    (runIteration 64 160 96 (iterPool 64 160 96 n)).2.1 = 1
  ∧ (runIteration 64 160 96 (iterPool 64 160 96 n)).2.2
      = List.replicate 100 10 ++ [11, 10] := by
  obtain ⟨m, rfl⟩ : ∃ m, n = m + 1 := ⟨n - 1, (Nat.succ_pred_eq_of_pos hn).symm⟩
  rw [iterPool_stable]
  exact ⟨by decide, by decide⟩

/-- Witness for C6's amended theorem at the first post-warm-up
repetition. -/
theorem spec_c6_steady_state_witness :
    1 ≤ 1 ∧ (runIteration 64 160 96 (iterPool 64 160 96 1)).2.1 = 1 :=
  ⟨Nat.le_refl 1, (spec_c6_steady_state 1 (Nat.le_refl 1)).1⟩

/-- C7: when the stop token is already in the stop-requested state
before the chain begins (and stop requests are permanent, as for
`std::stop_token`), every `stop_requested()` query performed while the
chain runs — in particular the first check of every Pending Operation
that implements the stoppable protocol — observes `true`, and no
operation performs a unit of work. -/
theorem spec_c7_preset_stop (stopAt : Nat → Bool) (ops : List stoppable.chain_op)
    (h0 : stopAt 0 = true)
    (hmono : ∀ i j : Nat, i ≤ j → stopAt i = true → stopAt j = true) :
    (∀ b : Bool, stoppable.ev.check b ∈ stoppable.runChain stopAt ops 0 0 → b = true)
  ∧ (∀ i : Nat, stoppable.ev.workUnit i ∉ stoppable.runChain stopAt ops 0 0) := by
  have h1 : stopAt 1 = true := hmono 0 1 (Nat.zero_le 1) h0
  cases ops with
  | nil =>
    exact ⟨fun b hb => absurd hb (List.not_mem_nil _),
           fun i hi => absurd hi (List.not_mem_nil _)⟩
  | cons op rest =>
    constructor
    · intro b hb
      simp [stoppable.runChain, h0, h1] at hb
      exact hb
    · intro i hi
      simp [stoppable.runChain, h0, h1] at hi

/-- Witness for C7: a permanently stop-requested token over a chain of
one participating and one non-participating operation. -/
theorem spec_c7_preset_stop_witness :
    (fun _ => true : Nat → Bool) 0 = true
  ∧ stoppable.ev.workUnit 0 ∉
      stoppable.runChain (fun _ => true) [⟨true⟩, ⟨false⟩] 0 0 :=
  ⟨rfl, (spec_c7_preset_stop (fun _ => true) [⟨true⟩, ⟨false⟩] rfl
           (fun _ _ _ h => h)).2 0⟩

end co
